import Mathlib

/-!
Verification of the `MatrixDenoising` cost functor and the solver driver of
`CeresMatrixManifolds.cpp`.

The C++ code defines a first-order cost functor measuring Frobenius distance
to a fixed target matrix `A`, plus a driver `solveGradientProblem` that fills
in a `GradientProblemSolver::Options` record and hands everything to the
external Ceres solver.  We embed the functor over `Matrix (Fin m) (Fin n) ℝ`
(doubles are modelled as exact reals), with the flat parameter/gradient
buffers modelled as functions `Fin (m * n) → ℝ` in Eigen's column-major
layout, and `Evaluate` as an explicit state transformer over the caller's
cost and gradient buffers.  The external Ceres `Solve` call, the Eigen
kernels and the manifold parameterizations are out of scope per the spec;
only the options record that `solveGradientProblem` constructs is embedded.
-/

noncomputable section

/-- Eigen's `.norm()` on a dense real matrix: the Frobenius norm,
the square root of the sum of squared entries. -/
def frobNorm {m n : ℕ} (X : Matrix (Fin m) (Fin n) ℝ) : ℝ :=
  Real.sqrt (∑ i, ∑ j, X i j ^ 2)

/-- `MatrixDenoising::costFrobenius` (lines 36–40): `0.5 * (X - A).norm()`.
The member `A` is passed explicitly as the first argument. -/
def costFrobenius {m n : ℕ} (A X : Matrix (Fin m) (Fin n) ℝ) : ℝ :=
  0.5 * frobNorm (X - A)

/-- `MatrixDenoising::gradientFrobenius` (lines 42–45): returns `X - A`. -/
def gradientFrobenius {m n : ℕ} (A X : Matrix (Fin m) (Fin n) ℝ) :
    Matrix (Fin m) (Fin n) ℝ :=
  X - A

/-- `MatrixDenoising::costGradientFrobenius` (lines 47–53): sets
`Grad = gradientFrobenius(X)`, computes `cost = Grad.norm()` and returns
`0.5 * cost`.  The pair holds (returned scalar, matrix written to `Grad`). -/
def costGradientFrobenius {m n : ℕ} (A X : Matrix (Fin m) (Fin n) ℝ) :
    ℝ × Matrix (Fin m) (Fin n) ℝ :=
  let Grad := gradientFrobenius A X
  (0.5 * frobNorm Grad, Grad)

/-- `MatrixDenoising::NumParameters` (lines 32–34): `A.rows() * A.cols()`. -/
def NumParameters {m n : ℕ} (_A : Matrix (Fin m) (Fin n) ℝ) : ℕ :=
  m * n

/-- Column-major flat index of entry `(i, j)` of an `m × n` matrix,
matching Eigen's default storage order used by `Map<MatrixXd>`. -/
def vecIdx {m n : ℕ} (i : Fin m) (j : Fin n) : Fin (m * n) :=
  ⟨j.1 * m + i.1, by
    have h1 : j.1 * m + i.1 < j.1 * m + m := Nat.add_lt_add_left i.2 _
    have h2 : j.1 * m + m = (j.1 + 1) * m := (Nat.succ_mul j.1 m).symm
    have h3 : (j.1 + 1) * m ≤ n * m := Nat.mul_le_mul_right m j.2
    calc j.1 * m + i.1 < (j.1 + 1) * m := h2 ▸ h1
      _ ≤ n * m := h3
      _ = m * n := Nat.mul_comm n m⟩

/-- `Map<const MatrixXd>(parameters, rows, cols)` (line 19): view a flat
column-major buffer as an `m × n` matrix. -/
def matMap {m n : ℕ} (buf : Fin (m * n) → ℝ) : Matrix (Fin m) (Fin n) ℝ :=
  fun i j => buf (vecIdx i j)

theorem fin_mul_rows_pos {m n : ℕ} (k : Fin (m * n)) : 0 < m := by
  rcases Nat.eq_zero_or_pos m with h | h
  · exact absurd k.2 (by simp [h])
  · exact h

/-- Assignment through `Map<MatrixXd> eGrad(gradient, rows, cols)`
(lines 25–26): write a matrix into a flat column-major buffer.  Position
`k` of the buffer receives entry `(k % m, k / m)`. -/
def bufOfMat {m n : ℕ} (M : Matrix (Fin m) (Fin n) ℝ) : Fin (m * n) → ℝ :=
  fun k =>
    M ⟨k.1 % m, Nat.mod_lt _ (fin_mul_rows_pos k)⟩
      ⟨k.1 / m, (Nat.div_lt_iff_lt_mul (fin_mul_rows_pos k)).2
        (Nat.mul_comm m n ▸ k.2)⟩

/-- The memory the `Evaluate` call touches: the target matrix `A` (held by
reference by the functor), the caller's flat parameter buffer, the caller's
cost cell `cost[0]` and the caller's flat gradient buffer. -/
structure EvalState (m n : ℕ) where
  A : Matrix (Fin m) (Fin n) ℝ
  parameters : Fin (m * n) → ℝ
  cost : ℝ
  gradient : Fin (m * n) → ℝ

/-- `MatrixDenoising::Evaluate` (lines 16–30).  `gradientRequested` models
`gradient != NULL`.  The candidate `P0` is the column-major view of the
parameter buffer; the branch without gradient writes `costFrobenius(P0)` to
the cost cell, the branch with gradient writes the matrix produced by
`costGradientFrobenius` into the gradient buffer and its scalar into the
cost cell.  The boolean is the C++ return value. -/
def Evaluate {m n : ℕ} (s : EvalState m n) (gradientRequested : Bool) :
    EvalState m n × Bool :=
  let P0 := matMap s.parameters
  match gradientRequested with
  | false => ({ s with cost := costFrobenius s.A P0 }, true)
  | true =>
      let r := costGradientFrobenius s.A P0
      ({ s with cost := r.1, gradient := bufOfMat r.2 }, true)

/-- `ceres::LoggingType` values used by the driver. -/
inductive LoggingType
  | SILENT
  | PER_MINIMIZER_ITERATION
deriving DecidableEq

/-- `ceres::LineSearchDirectionType` values relevant to the driver. -/
inductive LineSearchDirectionType
  | STEEPEST_DESCENT
  | NONLINEAR_CONJUGATE_GRADIENT
  | LBFGS
  | BFGS
deriving DecidableEq

/-- `ceres::LineSearchType` values. -/
inductive LineSearchType
  | ARMIJO
  | WOLFE
deriving DecidableEq

/-- The fields of `GradientProblemSolver::Options` that
`solveGradientProblem` assigns (lines 60–67). -/
structure GradientProblemSolverOptions where
  max_num_iterations : ℕ
  logging_type : LoggingType
  minimizer_progress_to_stdout : Bool
  function_tolerance : ℝ
  gradient_tolerance : ℝ
  line_search_direction_type : LineSearchDirectionType
  line_search_type : LineSearchType

/-- The options record built inside `solveGradientProblem` (lines 58–75)
before the external `ceres::Solve` call; the solve itself is an external
library service and out of scope. -/
def solveGradientProblemOptions : GradientProblemSolverOptions where
  max_num_iterations := 200
  logging_type := LoggingType.PER_MINIMIZER_ITERATION
  minimizer_progress_to_stdout := true
  function_tolerance := 1e-8
  gradient_tolerance := 1e-8
  line_search_direction_type := LineSearchDirectionType.LBFGS
  line_search_type := LineSearchType.WOLFE

/- Helper lemmas shared by the claim theorems. -/

theorem bufOfMat_vecIdx {m n : ℕ} (M : Matrix (Fin m) (Fin n) ℝ)
    (i : Fin m) (j : Fin n) : bufOfMat M (vecIdx i j) = M i j := by
  have hm : 0 < m := i.pos
  have h1 : (j.1 * m + i.1) % m = i.1 := by
    rw [Nat.add_comm, Nat.add_mul_mod_self_right, Nat.mod_eq_of_lt i.2]
  have h2 : (j.1 * m + i.1) / m = j.1 := by
    rw [Nat.mul_comm j.1 m, Nat.mul_add_div hm, Nat.div_eq_of_lt i.2,
      Nat.add_zero]
  unfold bufOfMat vecIdx
  congr 1
  · exact Fin.ext h1
  · exact Fin.ext h2

theorem frobNorm_neg {m n : ℕ} (M : Matrix (Fin m) (Fin n) ℝ) :
    frobNorm (-M) = frobNorm M := by
  unfold frobNorm
  congr 1
  refine Finset.sum_congr rfl fun i _ => Finset.sum_congr rfl fun j _ => ?_
  simp [Matrix.neg_apply]

theorem frobNorm_zero {m n : ℕ} :
    frobNorm (0 : Matrix (Fin m) (Fin n) ℝ) = 0 := by
  simp [frobNorm]

theorem frobNorm_smul {m n : ℕ} (c : ℝ) (M : Matrix (Fin m) (Fin n) ℝ) :
    frobNorm (c • M) = |c| * frobNorm M := by
  unfold frobNorm
  have h : (∑ i, ∑ j, (c • M) i j ^ 2) = c ^ 2 * ∑ i, ∑ j, M i j ^ 2 := by
    rw [Finset.mul_sum]
    refine Finset.sum_congr rfl fun i _ => ?_
    rw [Finset.mul_sum]
    refine Finset.sum_congr rfl fun j _ => ?_
    simp [Matrix.smul_apply]
    ring
  rw [h, Real.sqrt_mul (sq_nonneg c), Real.sqrt_sq_eq_abs]

/-- C1: for every target `A` and candidate buffer of length `rows × cols`,
`Evaluate` without a gradient request writes `0.5 * ‖X − A‖_F` (one half of
the unsquared Frobenius norm of the difference) into the cost cell and
returns it as the scalar cost. -/
theorem C1_evaluate_without_gradient_cost {m n : ℕ} (s : EvalState m n) :
    ((Evaluate s false).1).cost
      = 0.5 * frobNorm (matMap s.parameters - s.A) := rfl

/-- C2: `Evaluate` with a gradient request writes exactly `X − A`
elementwise into the gradient buffer (column-major entry `(i, j)`),
independent of the scalar cost's normalization. -/
theorem C2_gradient_buffer_holds_X_sub_A {m n : ℕ} (s : EvalState m n)
    (i : Fin m) (j : Fin n) :
    ((Evaluate s true).1).gradient (vecIdx i j)
      = matMap s.parameters i j - s.A i j := by
  show bufOfMat (gradientFrobenius s.A (matMap s.parameters)) (vecIdx i j) = _
  rw [bufOfMat_vecIdx]
  simp [gradientFrobenius, Matrix.sub_apply]

/-- C3: `Evaluate` always returns `true` (for either branch), and as a pure
function of `(A, X)` it is idempotent: re-evaluating at the same `X` with no
gradient request reproduces the exact same state (identical cost, no
mutation of `A`, the parameters or the gradient buffer). -/
theorem C3_evaluate_succeeds_pure_idempotent {m n : ℕ} (s : EvalState m n)
    (g : Bool) :
    (Evaluate s g).2 = true
      ∧ Evaluate ((Evaluate s false).1) false = Evaluate s false := by
  constructor
  · cases g <;> rfl
  · rfl

/-- C4: `NumParameters` reports exactly `rows × cols` of the target. -/
theorem C4_num_parameters {m n : ℕ} (A : Matrix (Fin m) (Fin n) ℝ) :
    NumParameters A = m * n := rfl

/-- C5: `Evaluate` never mutates the target `A` held by reference, nor the
parameter buffer; with no gradient request even the gradient buffer is left
untouched — the only writes go to the caller-supplied cost cell and
(when requested) the gradient buffer, and `costFrobenius`,
`gradientFrobenius`, `costGradientFrobenius` and `NumParameters` are pure
functions of their arguments, so no call sequence changes `A`. -/
theorem C5_frame_A_unchanged {m n : ℕ} (s : EvalState m n) (g : Bool) :
    ((Evaluate s g).1).A = s.A
      ∧ ((Evaluate s g).1).parameters = s.parameters
      ∧ ((Evaluate s false).1).gradient = s.gradient := by
  refine ⟨?_, ?_, rfl⟩ <;> cases g <;> rfl

/-- C8: the solver driver configures the optimizer with exactly maximum
iteration count 200, function tolerance `1e-8`, gradient tolerance `1e-8`,
LBFGS search direction, Wolfe line search, and progress logging enabled
(per-minimizer-iteration logging to stdout); the record is a constant,
fixed for the scope of a single run. -/
theorem C8_solver_options :
    solveGradientProblemOptions.max_num_iterations = 200
      ∧ solveGradientProblemOptions.function_tolerance = 1e-8
      ∧ solveGradientProblemOptions.gradient_tolerance = 1e-8
      ∧ solveGradientProblemOptions.line_search_direction_type
          = LineSearchDirectionType.LBFGS
      ∧ solveGradientProblemOptions.line_search_type = LineSearchType.WOLFE
      ∧ solveGradientProblemOptions.minimizer_progress_to_stdout = true
      ∧ solveGradientProblemOptions.logging_type
          = LoggingType.PER_MINIMIZER_ITERATION :=
  ⟨rfl, rfl, rfl, rfl, rfl, rfl, rfl⟩

/-- C6: evaluating the cost functor at `X = A` (square matrices) yields
cost `0` in both branches and the zero matrix as gradient. -/
theorem C6_cost_zero_at_target {n : ℕ} (A : Matrix (Fin n) (Fin n) ℝ) :
    costFrobenius A A = 0 ∧ (costGradientFrobenius A A).1 = 0
      ∧ (costGradientFrobenius A A).2 = 0 := by
  refine ⟨?_, ?_, ?_⟩ <;>
    simp [costFrobenius, costGradientFrobenius, gradientFrobenius,
      frobNorm_zero]

/-- C7: the cost is symmetric under simultaneous negation of the candidate
and the target: `cost(X, A) = cost(−X, −A)`. -/
theorem C7_cost_neg_symmetric {m n : ℕ} (A X : Matrix (Fin m) (Fin n) ℝ) :
    costFrobenius A X = costFrobenius (-A) (-X) := by
  unfold costFrobenius
  have h : (-X - -A : Matrix (Fin m) (Fin n) ℝ) = -(X - A) := by
    rw [neg_sub_neg, neg_sub]
  rw [h, frobNorm_neg]

/-- C9: the gradient branch and the no-gradient branch of `Evaluate`
return the same scalar cost, `0.5 * ‖X − A‖_F`. -/
theorem C9_branches_agree {m n : ℕ} (s : EvalState m n) :
    ((Evaluate s true).1).cost = ((Evaluate s false).1).cost
      ∧ ((Evaluate s true).1).cost
        = 0.5 * frobNorm (matMap s.parameters - s.A) :=
  ⟨rfl, rfl⟩

/-- C10: the cost is absolutely homogeneous of degree one:
`cost(c·X, c·A) = |c| * cost(X, A)`, as forced by the unsquared Frobenius
norm (the squared variant would scale by `c²`). -/
theorem C10_cost_abs_homogeneous {m n : ℕ} (c : ℝ)
    (A X : Matrix (Fin m) (Fin n) ℝ) :
    costFrobenius (c • A) (c • X) = |c| * costFrobenius A X := by
  unfold costFrobenius
  rw [show (c • X - c • A : Matrix (Fin m) (Fin n) ℝ) = c • (X - A) from
    (smul_sub c X A).symm, frobNorm_smul]
  ring
